import Mathlib

/-!
Verification of the bulk mailer (`sendEmails.js`).

The development shallowly embeds the parts of the source that the
specification talks about:

* `getCsvInfo` — the streaming record-set scanner (newline counting and
  header extraction over a list of byte chunks);
* `replaceTokens` — the `@name@` template substitution built on JavaScript
  `String.replace` with the global pattern for `@`, a run of word
  characters, `@`;
* token extraction and validation (`jsMatchTokens`, `validateTokens`) as
  performed by `init` before dispatch;
* `sendOneEmail` — provider-call wrapper returning the message id on
  status 202 and `false` (here `none`) otherwise;
* the batched dispatch loop of `init` (`dispatchBatches`,
  `dispatchOutcomes`, `throttleDelays`).

JavaScript numbers that the code treats as integers are modelled as `Nat`
or `Int`; bytes are `Nat`; a JavaScript value that may be `undefined` or
`false` is an `Option`; code that can throw returns `Except`.  The
external CSV parser is modelled for quote-free input as a plain comma
split that, like `csv-parse`, yields no records on empty input — which
the scanner's header extraction turns into a `TypeError`.
-/

namespace BulkMailer

/-! ### Provider call: `sendOneEmail` -/

/-- Result of one `sendgridMail.send` call as observed by `sendOneEmail`:
either the call throws, or it yields a response with a rejection value, a
status code and an `x-message-id` header. -/
inductive SendResult where
  | throw : SendResult
  | resp (reject : Bool) (statusCode : Nat) (messageId : String) : SendResult
deriving DecidableEq, Repr

/-- `sendOneEmail` (src/sendEmails.js:180-209): `false` (`none`) when the
call throws, when a rejection value is present, or when the status code is
not 202; otherwise the `x-message-id` header. -/
def sendOneEmail : SendResult → Option String
  | .throw => none
  | .resp reject statusCode messageId =>
      if reject || statusCode != 202 then none else some messageId

/-- A provider interaction that `sendOneEmail` reports as failed. -/
def sendFails : SendResult → Bool
  | .throw => true
  | .resp reject statusCode _ => reject || statusCode != 202

/-! ### The dispatch loop of `init`

`for (let i = 1; i <= recordCount; i += concurrency)` with the inner loop
`for (let j = 0; j < concurrency; j++)` collecting `csvFileContents[i + j]`
whenever that row exists, i.e. whenever `i + j ≤ recordCount` (the parsed
file has rows `0 … recordCount`, row 0 being the header).  The outer loop
is modelled with fuel; `n + 1` iterations are always enough once
`concurrency ≥ 1`. -/

/-- One batch of the dispatch loop: the data-row indices `i + j` for
`j < c` that exist (`≤ n`). -/
def batchAt (n c i : Nat) : List Nat :=
  ((List.range c).map (fun j => i + j)).filter (fun k => k ≤ n)

/-- The outer dispatch loop, collecting the batches of record indices. -/
def batchLoop (n c : Nat) : Nat → Nat → List (List Nat)
  | 0, _ => []
  | fuel + 1, i =>
      if i ≤ n then batchAt n c i :: batchLoop n c fuel (i + c) else []

/-- The batches visited by `init`'s send loop for `n` data records at
concurrency `c` (src/sendEmails.js:133-160). -/
def dispatchBatches (n c : Nat) : List (List Nat) :=
  batchLoop n c (n + 1) 1

/-- The outer loop again, now collecting the resolved value of
`sendOneEmail` for every record of every batch, in order. -/
def sendLoop (n c : Nat) (sender : Nat → SendResult) : Nat → Nat → List (Option String)
  | 0, _ => []
  | fuel + 1, i =>
      if i ≤ n then
        (batchAt n c i).map (fun k => sendOneEmail (sender k))
          ++ sendLoop n c sender fuel (i + c)
      else []

/-- All per-record outcomes of a run: `some id` for a delivered record,
`none` for a failed one, ordered by record index. -/
def dispatchOutcomes (n c : Nat) (sender : Nat → SendResult) : List (Option String) :=
  sendLoop n c sender (n + 1) 1

/-- The outer loop once more, counting executions of the throttle branch
`if (throttle) { await … }` (src/sendEmails.js:138-141), which runs at the
top of every batch iteration. -/
def throttleLoop (n c throttle : Nat) : Nat → Nat → Nat
  | 0, _ => 0
  | fuel + 1, i =>
      if i ≤ n then
        (if throttle ≠ 0 then 1 else 0) + throttleLoop n c throttle fuel (i + c)
      else 0

/-- Number of throttle delays in a run with `n` records, concurrency `c`
and throttle setting `throttle`. -/
def throttleDelays (n c throttle : Nat) : Nat :=
  throttleLoop n c throttle (n + 1) 1

/-! Spec-side description of batching: contiguous chunks of size `c`,
the last one possibly short. -/

/-- `chunksOf c l` splits `l` into contiguous chunks of `c` elements, the
last chunk possibly shorter.  This follows the specification's wording for
batches; `dispatchBatches` is proved equal to it. -/
def chunksOf (c : Nat) : List α → List (List α)
  | [] => []
  | x :: xs => (x :: xs.take (c - 1)) :: chunksOf c (xs.drop (c - 1))
termination_by l => l.length
decreasing_by
  simp only [List.length_drop, List.length_cons]
  omega

/-! ### Token engine

The pattern used by both `replaceTokens` and the validation in `init` is
the global regular expression for `@`, a run of `[a-zA-Z0-9_]`, `@`.
`scanTokenName` models matching it at a fixed position: given the
characters after an opening `@`, it returns the token name and the
characters after the closing `@`, or `none` when no match starts here. -/

/-- Characters of the class `[a-zA-Z0-9_]`. -/
def isWordChar (c : Char) : Bool :=
  c.isAlpha || c.isDigit || c = '_'

/-- Match the remainder of a token after an opening `@`: a run of word
characters and a closing `@`.  Returns the name and the rest of the
input.  Because `@` is not a word character, the greedy run of the regex
is exactly the maximal word-character run, so no backtracking arises. -/
def scanTokenName : List Char → Option (List Char × List Char)
  | [] => none
  | c :: cs =>
      if c = '@' then some ([], cs)
      else if isWordChar c then
        match scanTokenName cs with
        | some (name, rest) => some (c :: name, rest)
        | none => none
      else none

/-- JavaScript `Array.prototype.indexOf`: index of the first occurrence,
`-1` when absent. -/
def jsIndexOf : List String → String → Int
  | [], _ => -1
  | k :: ks, s =>
      if k = s then 0
      else
        let r := jsIndexOf ks s
        if r = -1 then -1 else r + 1

/-- JavaScript indexing `values[i]`: `undefined` (`none`) for a negative
or out-of-range index. -/
def jsGet (values : List String) (i : Int) : Option String :=
  if i < 0 then none else values.get? i.toNat

/-- The replacement the callback of `replaceTokens`
(src/sendEmails.js:176) produces for one matched token:
`values[keys.indexOf(match.slice(1, -1))] || match`.  Both `undefined`
(name not a column, or row too short) and the empty string are falsy, so
they fall back to the literal match text. -/
def tokenReplacement (keys values : List String) (name : List Char) : List Char :=
  let matchChars : List Char := '@' :: (name ++ ['@'])
  match jsGet values (jsIndexOf keys (String.mk name)) with
  | some v => if v = "" then matchChars else v.data
  | none => matchChars

/-- `String.replace` with the global token pattern: scan left to right,
replace each non-overlapping match via `tokenReplacement`, and never
re-scan replacement text.  The recursion is driven by a fuel argument
(any fuel at least the input length gives the scan's result; see
`replaceTokensGo_fuel`), keeping the definition kernel-evaluable. -/
def replaceTokensGo (keys values : List String) : Nat → List Char → List Char
  | 0, l => l
  | _ + 1, [] => []
  | fuel + 1, c :: cs =>
      if c = '@' then
        match scanTokenName cs with
        | some (name, rest) =>
            tokenReplacement keys values name ++ replaceTokensGo keys values fuel rest
        | none => c :: replaceTokensGo keys values fuel cs
      else c :: replaceTokensGo keys values fuel cs

/-- The scan of the whole input, with enough fuel to finish. -/
def replaceTokensAux (keys values : List String) (l : List Char) : List Char :=
  replaceTokensGo keys values l.length l

/-- `replaceTokens` (src/sendEmails.js:175-177). -/
def replaceTokens (input : String) (keys values : List String) : String :=
  String.mk (replaceTokensAux keys values input.data)

/-- All matches of the global token pattern, as full match texts (with
their `@` delimiters), left to right; fuel-driven like
`replaceTokensGo`. -/
def tokenMatchesGo : Nat → List Char → List (List Char)
  | 0, _ => []
  | _ + 1, [] => []
  | fuel + 1, c :: cs =>
      if c = '@' then
        match scanTokenName cs with
        | some (name, rest) => ('@' :: (name ++ ['@'])) :: tokenMatchesGo fuel rest
        | none => tokenMatchesGo fuel cs
      else tokenMatchesGo fuel cs

/-- All matches of the global token pattern in a character list. -/
def tokenMatchesAux (l : List Char) : List (List Char) :=
  tokenMatchesGo l.length l

/-- JavaScript `text.match(/@[a-zA-Z0-9_]*@/g)`: `null` (`none`) when
there is no match, otherwise the list of match texts. -/
def jsMatchTokens (text : String) : Option (List String) :=
  if ((tokenMatchesAux text.data).map String.mk).isEmpty then none
  else some ((tokenMatchesAux text.data).map String.mk)

/-- `tokenName.slice(1, -1)`: the token name without its delimiters. -/
def tokenInner (t : String) : String :=
  String.mk ((t.data.drop 1).dropLast)

/-- Errors `init`'s template validation can raise: the `TypeError` from
calling `forEach` on `null`, and the explicit unavailable-tokens error. -/
inductive JsError where
  | typeError : JsError
  | unknownToken : List String → JsError
deriving DecidableEq, Repr

/-- The `forEach` over the matched tokens (src/sendEmails.js:101-109),
pushing each token onto `usedTokens` or `unavailableTokens` in order.
Returns `(usedTokens, unavailableTokens)`. -/
def collectTokens (columnNames : List String) : List String → List String × List String
  | [] => ([], [])
  | t :: ts =>
      let rest := collectTokens columnNames ts
      if jsIndexOf columnNames (tokenInner t) = -1 then (rest.1, t :: rest.2)
      else (t :: rest.1, rest.2)

/-- The template validation step of `init` (src/sendEmails.js:99-113):
match the token pattern over `SUBJECT_LINE + templateContents`, partition
the matches against the column names, and fail when any are unavailable.
When there is no match at all, the code calls `forEach` on `null` and
dies with a `TypeError`.  On success it returns `usedTokens`. -/
def validateTokens (subjectLine templateContents : String)
    (columnNames : List String) : Except JsError (List String) :=
  match jsMatchTokens (subjectLine ++ templateContents) with
  | none => .error .typeError
  | some tokens =>
      if (collectTokens columnNames tokens).2.isEmpty
      then .ok (collectTokens columnNames tokens).1
      else .error (.unknownToken (collectTokens columnNames tokens).2)

/-- Validation followed by dispatch, as `init` sequences them: a
validation error aborts before any send is attempted. -/
def initRun (subjectLine templateContents : String) (columnNames : List String)
    (n c : Nat) (sender : Nat → SendResult) : Except JsError (List (Option String)) :=
  match validateTokens subjectLine templateContents columnNames with
  | .error e => .error e
  | .ok _ => .ok (dispatchOutcomes n c sender)

/-! ### Token-structured texts

To state what substitution does to every token occurrence of a text, a
text is presented as a list of segments: literal stretches containing no
`@`, and tokens with word-character names.  `renderChars` writes such a
text out; every `@name@` occurrence of the rendered text is a `tok`
segment. -/

/-- A piece of a template: a literal stretch or a `@name@` token. -/
inductive Segment where
  | lit : String → Segment
  | tok : String → Segment
deriving DecidableEq, Repr

/-- Well-formed segments: literals without `@`, token names made of word
characters. -/
def segWF : Segment → Bool
  | .lit s => s.data.all (fun c => c != '@')
  | .tok name => name.data.all isWordChar

/-- The text a segment list denotes. -/
def renderChars : List Segment → List Char
  | [] => []
  | .lit s :: segs => s.data ++ renderChars segs
  | .tok n :: segs => '@' :: (n.data ++ '@' :: renderChars segs)

/-- Per-segment substitution: literals unchanged, each token replaced by
what the `replaceTokens` callback yields for it — independently, with no
re-scan of the replacement. -/
def substChars (keys values : List String) : List Segment → List Char
  | [] => []
  | .lit s :: segs => s.data ++ substChars keys values segs
  | .tok n :: segs => tokenReplacement keys values n.data ++ substChars keys values segs

/-! ### Validation partition -/

/-- The tokens of `text` whose inner name is not a column name — exactly
what `init` accumulates into `unavailableTokens`. -/
def unavailableTokensOf (text : String) (columnNames : List String) : List String :=
  ((tokenMatchesAux text.data).map String.mk).filter
    (fun t => jsIndexOf columnNames (tokenInner t) = -1)

/-! ### Record-set scanner: `getCsvInfo`

The scanner consumes the file as a list of byte chunks.  Each chunk
fires the `data` handler (src/sendEmails.js:219-231): the first chunk
has the header parsed from its bytes up to the first `0x0A` — or, when
`Buffer.indexOf` returns `-1`, `slice(0, -1)` silently drops just the
last byte — and every chunk bumps the record count through the
`do … while (idx !== -1)` loop, whose net effect is one increment per
`0x0A` byte (the `recordCount--` before the loop cancels the increment
of the final, failing `indexOf`).  The `end` handler reports
`recordCount - 1`.  The external `csv-parse` of the header slice is
modelled for quote-free input: an empty slice yields no records (as
`parse('')` does), any other slice one record of comma-split fields.
When the parse yields no records, `parse(headerRow, {})[0]` is
`undefined` and `columnNames.push(...undefined)` throws a `TypeError`
inside the `data` handler, so the promise never resolves — the scanner
is therefore fallible, returning `Except`. -/

/-- Split a byte list on a separator byte; always at least one field. -/
def splitOnByte (sep : Nat) : List Nat → List (List Nat)
  | [] => [[]]
  | b :: bs =>
      let r := splitOnByte sep bs
      if b = sep then [] :: r
      else
        match r with
        | [] => [[b]]
        | f :: rest => (b :: f) :: rest

def bytesToString (bs : List Nat) : String :=
  String.mk (bs.map Char.ofNat)

/-- The fields of one header row: split on commas (byte 44). -/
def parseCsvLine (bs : List Nat) : List String :=
  (splitOnByte 44 bs).map bytesToString

/-- `parse(headerRow, {})` on the newline-free header slice, modelled
for quote-free input: the empty string yields no records — `csv-parse`
returns `[]` for it — and any other input yields exactly one record of
comma-split fields. -/
def parseCsvRecords (bs : List Nat) : List (List String) :=
  if bs.isEmpty then [] else [parseCsvLine bs]

/-- What `getCsvInfo` resolves with. -/
structure CsvInfo where
  columnNames : List String
  recordCount : Int
deriving DecidableEq, Repr

/-- `buffer.slice(0, buffer.indexOf(10))`: up to the first newline, or —
since `indexOf` yields `-1` and `slice(0, -1)` drops one byte — all but
the last byte when there is no newline. -/
def headerSlice (buf : List Nat) : List Nat :=
  match buf.findIdx? (fun b => b = 10) with
  | some i => buf.take i
  | none => buf.take (buf.length - 1)

/-- The `data` handler for one chunk.  While `columnNames` is empty the
header is parsed from `headerSlice buf`; when that parse yields no
records, `parse(headerRow, {})[0]` is `undefined` and
`columnNames.push(...undefined)` throws a `TypeError` before the
newline-counting loop runs. -/
def scanChunk (st : CsvInfo) (buf : List Nat) : Except JsError CsvInfo :=
  if st.columnNames.isEmpty then
    match parseCsvRecords (headerSlice buf) with
    | [] => .error .typeError
    | r :: _ =>
        .ok ⟨st.columnNames ++ r,
          st.recordCount - 1 + ((buf.countP (fun b => b = 10) : Int) + 1)⟩
  else
    .ok ⟨st.columnNames,
      st.recordCount - 1 + ((buf.countP (fun b => b = 10) : Int) + 1)⟩

/-- The `data` handler over all chunks in order; a throw stops the
stream, so an error short-circuits. -/
def scanChunks : CsvInfo → List (List Nat) → Except JsError CsvInfo
  | st, [] => .ok st
  | st, buf :: rest =>
      match scanChunk st buf with
      | .error e => .error e
      | .ok st2 => scanChunks st2 rest

/-- `getCsvInfo` (src/sendEmails.js:214-236) over the stream's chunks:
the `end` handler resolves with `recordCount - 1`, unless a `data`
handler threw first, in which case the promise never resolves. -/
def getCsvInfo (chunks : List (List Nat)) : Except JsError CsvInfo :=
  match scanChunks ⟨[], 0⟩ chunks with
  | .error e => .error e
  | .ok st => .ok ⟨st.columnNames, st.recordCount - 1⟩

/-- ASCII bytes of a string, for writing concrete record sets. -/
def strBytes (s : String) : List Nat :=
  s.data.map Char.toNat

/-! ### Lemmas and claim theorems -/

theorem sendOneEmail_of_fails {r : SendResult} (h : sendFails r = true) :
    sendOneEmail r = none := by
  cases r with
  | throw => rfl
  | resp reject statusCode messageId =>
      simp only [sendFails] at h
      simp [sendOneEmail, h]
/-! ### Batching lemmas -/

theorem range'_filter_le (n : Nat) : ∀ (c i : Nat),
    (List.range' i c).filter (fun k => k ≤ n) = List.range' i (min c (n + 1 - i)) := by
  intro c
  induction c with
  | zero => intro i; simp
  | succ c ih =>
      intro i
      rw [List.range'_succ]
      by_cases hi : i ≤ n
      · rw [List.filter_cons_of_pos (by simpa using hi), ih (i + 1)]
        have hmin : min (c + 1) (n + 1 - i) = min c (n + 1 - (i + 1)) + 1 := by omega
        rw [hmin, List.range'_succ]
      · rw [List.filter_cons_of_neg (by simpa using hi), ih (i + 1)]
        have h0 : min c (n + 1 - (i + 1)) = 0 := by omega
        have h1 : min (c + 1) (n + 1 - i) = 0 := by omega
        rw [h0, h1]
        rfl
theorem batchAt_eq (n c i : Nat) :
    batchAt n c i = List.range' i (min c (n + 1 - i)) := by
  rw [batchAt, ← range'_filter_le n c i, List.range'_eq_map_range]
theorem range'_take : ∀ (m c i : Nat),
    (List.range' i m).take c = List.range' i (min c m) := by
  intro m
  induction m with
  | zero => intro c i; simp
  | succ m ih =>
      intro c i
      cases c with
      | zero => simp
      | succ c =>
          rw [List.range'_succ, List.take_succ_cons, ih c (i + 1)]
          have hmin : min (c + 1) (m + 1) = min c m + 1 := by omega
          rw [hmin, List.range'_succ]
theorem range'_drop : ∀ (m c i : Nat),
    (List.range' i m).drop c = List.range' (i + c) (m - c) := by
  intro m
  induction m with
  | zero => intro c i; simp
  | succ m ih =>
      intro c i
      cases c with
      | zero => simp
      | succ c =>
          rw [List.range'_succ, List.drop_succ_cons, ih c (i + 1)]
          have h1 : i + 1 + c = i + (c + 1) := by omega
          have h2 : m - c = m + 1 - (c + 1) := by omega
          rw [h1, h2]
theorem batchLoop_eq_chunksOf (n c : Nat) (hc : 1 ≤ c) : ∀ (fuel i : Nat),
    n + 1 ≤ i + fuel →
    batchLoop n c fuel i = chunksOf c (List.range' i (n + 1 - i)) := by
  intro fuel
  induction fuel with
  | zero =>
      intro i hfuel
      have h0 : n + 1 - i = 0 := by omega
      rw [h0, show List.range' i 0 = [] from rfl, chunksOf]
      rfl
  | succ fuel ih =>
      intro i hfuel
      rw [batchLoop]
      by_cases hi : i ≤ n
      · have hpos : n + 1 - i = (n - i) + 1 := by omega
        rw [if_pos hi, ih (i + c) (by omega), hpos, List.range'_succ, chunksOf,
          range'_take, range'_drop, batchAt_eq]
        have hb : min c (n + 1 - i) = min (c - 1) (n - i) + 1 := by omega
        have hr : i + 1 + (c - 1) = i + c := by omega
        have hm : n - i - (c - 1) = n + 1 - (i + c) := by omega
        rw [hb, hr, hm, List.range'_succ]
      · have h0 : n + 1 - i = 0 := by omega
        rw [if_neg hi, h0, show List.range' i 0 = [] from rfl, chunksOf]
theorem dispatchBatches_eq_chunksOf (n c : Nat) (hc : 1 ≤ c) :
    dispatchBatches n c = chunksOf c (List.range' 1 n) := by
  have h := batchLoop_eq_chunksOf n c hc (n + 1) 1 (by omega)
  simpa [dispatchBatches] using h
theorem chunksOf_flatten (c : Nat) : ∀ (l : List α), (chunksOf c l).flatten = l
  | [] => by rw [chunksOf]; rfl
  | x :: xs => by
      rw [chunksOf, List.flatten_cons, chunksOf_flatten c (xs.drop (c - 1))]
      simp
termination_by l => l.length
decreasing_by
  simp only [List.length_drop, List.length_cons]
  omega
theorem dispatchBatches_flatten (n c : Nat) (hc : 1 ≤ c) :
    (dispatchBatches n c).flatten = List.range' 1 n := by
  rw [dispatchBatches_eq_chunksOf n c hc, chunksOf_flatten]
theorem sendLoop_eq (n c : Nat) (sender : Nat → SendResult) : ∀ (fuel i : Nat),
    sendLoop n c sender fuel i
      = (batchLoop n c fuel i).flatten.map (fun k => sendOneEmail (sender k)) := by
  intro fuel
  induction fuel with
  | zero => intro i; rfl
  | succ fuel ih =>
      intro i
      rw [sendLoop, batchLoop]
      by_cases hi : i ≤ n
      · rw [if_pos hi, if_pos hi, List.flatten_cons, List.map_append, ih (i + c)]
      · rw [if_neg hi, if_neg hi]
        rfl
theorem dispatchOutcomes_eq (n c : Nat) (sender : Nat → SendResult) (hc : 1 ≤ c) :
    dispatchOutcomes n c sender
      = (List.range' 1 n).map (fun k => sendOneEmail (sender k)) := by
  rw [dispatchOutcomes, sendLoop_eq]
  show (batchLoop n c (n + 1) 1).flatten.map _ = _
  rw [← dispatchBatches, dispatchBatches_flatten n c hc]
theorem throttleLoop_eq_length (n c throttle : Nat) (ht : throttle ≠ 0) :
    ∀ (fuel i : Nat), throttleLoop n c throttle fuel i = (batchLoop n c fuel i).length := by
  intro fuel
  induction fuel with
  | zero => intro i; rfl
  | succ fuel ih =>
      intro i
      rw [throttleLoop, batchLoop]
      by_cases hi : i ≤ n
      · rw [if_pos hi, if_pos hi, if_pos ht, List.length_cons, ih (i + c)]
        omega
      · rw [if_neg hi, if_neg hi]
        rfl
theorem scanTokenName_length : ∀ {cs name rest : List Char},
    scanTokenName cs = some (name, rest) → rest.length < cs.length := by
  intro cs
  induction cs with
  | nil => intro name rest h; simp [scanTokenName] at h
  | cons c cs ih =>
      intro name rest h
      rw [scanTokenName] at h
      by_cases hc : c = '@'
      · rw [if_pos hc] at h
        cases h
        simp
      · rw [if_neg hc] at h
        by_cases hw : isWordChar c
        · rw [if_pos hw] at h
          cases hm : scanTokenName cs with
          | none => rw [hm] at h; cases h
          | some p =>
              rw [hm] at h
              cases h
              have := ih hm
              simp only [List.length_cons]
              omega
        · rw [if_neg hw] at h
          cases h
theorem replaceTokensGo_fuel (keys values : List String) :
    ∀ (fuel₁ : Nat) (l : List Char) (fuel₂ : Nat), l.length ≤ fuel₁ → l.length ≤ fuel₂ →
      replaceTokensGo keys values fuel₁ l = replaceTokensGo keys values fuel₂ l := by
  intro fuel₁
  induction fuel₁ with
  | zero =>
      intro l fuel₂ h1 h2
      have hl : l = [] := List.length_eq_zero.mp (by omega)
      subst hl
      cases fuel₂ <;> rfl
  | succ fuel ih =>
      intro l fuel₂ h1 h2
      cases l with
      | nil => cases fuel₂ <;> rfl
      | cons c cs =>
          cases fuel₂ with
          | zero => simp at h2
          | succ f2 =>
              simp only [List.length_cons] at h1 h2
              rw [replaceTokensGo, replaceTokensGo]
              by_cases hc : c = '@'
              · rw [if_pos hc, if_pos hc]
                cases hm : scanTokenName cs with
                | none => rw [ih cs f2 (by omega) (by omega)]
                | some p =>
                    obtain ⟨name, rest⟩ := p
                    have hlen := scanTokenName_length hm
                    show tokenReplacement keys values name ++ replaceTokensGo keys values fuel rest
                        = tokenReplacement keys values name ++ replaceTokensGo keys values f2 rest
                    rw [ih rest f2 (by omega) (by omega)]
              · rw [if_neg hc, if_neg hc, ih cs f2 (by omega) (by omega)]
theorem replaceTokensAux_cons_lit (keys values : List String) {c : Char} (cs : List Char)
    (hc : c ≠ '@') :
    replaceTokensAux keys values (c :: cs) = c :: replaceTokensAux keys values cs := by
  rw [replaceTokensAux, replaceTokensAux, List.length_cons, replaceTokensGo, if_neg hc,
    replaceTokensGo_fuel keys values cs.length cs (cs.length + 1) (by omega) (by omega)]
theorem replaceTokensAux_token (keys values : List String) {cs name rest : List Char}
    (hscan : scanTokenName cs = some (name, rest)) :
    replaceTokensAux keys values ('@' :: cs)
      = tokenReplacement keys values name ++ replaceTokensAux keys values rest := by
  have hlen := scanTokenName_length hscan
  rw [replaceTokensAux, replaceTokensAux, List.length_cons, replaceTokensGo]
  rw [if_pos rfl, hscan,
    replaceTokensGo_fuel keys values rest.length rest cs.length (by omega) (by omega)]
theorem tokenMatchesGo_fuel :
    ∀ (fuel₁ : Nat) (l : List Char) (fuel₂ : Nat), l.length ≤ fuel₁ → l.length ≤ fuel₂ →
      tokenMatchesGo fuel₁ l = tokenMatchesGo fuel₂ l := by
  intro fuel₁
  induction fuel₁ with
  | zero =>
      intro l fuel₂ h1 h2
      have hl : l = [] := List.length_eq_zero.mp (by omega)
      subst hl
      cases fuel₂ <;> rfl
  | succ fuel ih =>
      intro l fuel₂ h1 h2
      cases l with
      | nil => cases fuel₂ <;> rfl
      | cons c cs =>
          cases fuel₂ with
          | zero => simp at h2
          | succ f2 =>
              simp only [List.length_cons] at h1 h2
              rw [tokenMatchesGo, tokenMatchesGo]
              by_cases hc : c = '@'
              · rw [if_pos hc, if_pos hc]
                cases hm : scanTokenName cs with
                | none => rw [ih cs f2 (by omega) (by omega)]
                | some p =>
                    obtain ⟨name, rest⟩ := p
                    have hlen := scanTokenName_length hm
                    show ('@' :: (name ++ ['@'])) :: tokenMatchesGo fuel rest
                        = ('@' :: (name ++ ['@'])) :: tokenMatchesGo f2 rest
                    rw [ih rest f2 (by omega) (by omega)]
              · rw [if_neg hc, if_neg hc, ih cs f2 (by omega) (by omega)]
theorem tokenMatchesAux_cons_lit {c : Char} (cs : List Char) (hc : c ≠ '@') :
    tokenMatchesAux (c :: cs) = tokenMatchesAux cs := by
  rw [tokenMatchesAux, tokenMatchesAux, List.length_cons, tokenMatchesGo, if_neg hc,
    tokenMatchesGo_fuel cs.length cs (cs.length + 1) (by omega) (by omega)]
theorem tokenMatchesAux_token {cs name rest : List Char}
    (hscan : scanTokenName cs = some (name, rest)) :
    tokenMatchesAux ('@' :: cs) = ('@' :: (name ++ ['@'])) :: tokenMatchesAux rest := by
  have hlen := scanTokenName_length hscan
  rw [tokenMatchesAux, tokenMatchesAux, List.length_cons, tokenMatchesGo]
  rw [if_pos rfl, hscan,
    tokenMatchesGo_fuel rest.length rest cs.length (by omega) (by omega)]
theorem isWordChar_ne_at {c : Char} (h : isWordChar c = true) : c ≠ '@' := by
  intro hc
  subst hc
  exact absurd h (by decide)
theorem scanTokenName_of_name : ∀ (name rest : List Char),
    name.all isWordChar = true →
    scanTokenName (name ++ '@' :: rest) = some (name, rest) := by
  intro name
  induction name with
  | nil => intro rest _; rfl
  | cons c name ih =>
      intro rest h
      simp only [List.all_cons, Bool.and_eq_true] at h
      rw [List.cons_append, scanTokenName, if_neg (isWordChar_ne_at h.1), if_pos h.1,
        ih rest h.2]
theorem replaceTokensAux_append_lit (keys values : List String) :
    ∀ (lits rest : List Char), lits.all (fun c => c != '@') = true →
      replaceTokensAux keys values (lits ++ rest) = lits ++ replaceTokensAux keys values rest := by
  intro lits
  induction lits with
  | nil => intro rest _; rfl
  | cons c cs ih =>
      intro rest h
      simp only [List.all_cons, Bool.and_eq_true, bne_iff_ne, ne_eq] at h
      rw [List.cons_append, replaceTokensAux_cons_lit keys values _ h.1, ih rest h.2,
        List.cons_append]
theorem replaceTokensAux_render (keys values : List String) :
    ∀ segs : List Segment, segs.all segWF = true →
      replaceTokensAux keys values (renderChars segs) = substChars keys values segs := by
  intro segs
  induction segs with
  | nil => intro _; rfl
  | cons seg segs ih =>
      intro h
      simp only [List.all_cons, Bool.and_eq_true] at h
      cases seg with
      | lit s =>
          rw [renderChars, substChars, replaceTokensAux_append_lit keys values _ _ h.1,
            ih h.2]
      | tok n =>
          rw [renderChars, substChars,
            replaceTokensAux_token keys values
              (scanTokenName_of_name n.data (renderChars segs) h.1),
            ih h.2]
theorem collectTokens_eq_filter (columnNames : List String) : ∀ ts : List String,
    collectTokens columnNames ts
      = (ts.filter (fun t => !decide (jsIndexOf columnNames (tokenInner t) = -1)),
         ts.filter (fun t => jsIndexOf columnNames (tokenInner t) = -1)) := by
  intro ts
  induction ts with
  | nil => rfl
  | cons t ts ih =>
      rw [collectTokens, ih]
      by_cases ht : jsIndexOf columnNames (tokenInner t) = -1
      · rw [if_pos ht, List.filter_cons_of_neg (by simpa using ht),
          List.filter_cons_of_pos (by simpa using ht)]
      · rw [if_neg ht, List.filter_cons_of_pos (by simpa using ht),
          List.filter_cons_of_neg (by simpa using ht)]
theorem dispatchOutcomes_getElem (n c : Nat) (sender : Nat → SendResult) (hc : 1 ≤ c)
    {j : Nat} (hj1 : 1 ≤ j) (hjn : j ≤ n) :
    (dispatchOutcomes n c sender)[j - 1]? = some (sendOneEmail (sender j)) := by
  have harith : 1 + 1 * (j - 1) = j := by omega
  rw [dispatchOutcomes_eq n c sender hc, List.getElem?_map,
    List.getElem?_range' 1 1 (show j - 1 < n by omega), harith]
  rfl

theorem validateTokens_of_has_tokens (subjectLine templateContents : String)
    (columnNames : List String)
    (h : tokenMatchesAux (subjectLine ++ templateContents).data ≠ []) :
    validateTokens subjectLine templateContents columnNames
      = if unavailableTokensOf (subjectLine ++ templateContents) columnNames = []
        then .ok (((tokenMatchesAux (subjectLine ++ templateContents).data).map String.mk).filter
            (fun t => !decide (jsIndexOf columnNames (tokenInner t) = -1)))
        else .error (.unknownToken
            (unavailableTokensOf (subjectLine ++ templateContents) columnNames)) := by
  have hne : ((tokenMatchesAux (subjectLine ++ templateContents).data).map String.mk).isEmpty
      = false := by
    cases hm : tokenMatchesAux (subjectLine ++ templateContents).data with
    | nil => exact absurd hm h
    | cons a l => rfl
  rw [validateTokens, jsMatchTokens, hne]
  show (if (collectTokens columnNames _).2.isEmpty then _ else _) = _
  rw [collectTokens_eq_filter, unavailableTokensOf]
  by_cases hu : ((tokenMatchesAux (subjectLine ++ templateContents).data).map String.mk).filter
      (fun t => jsIndexOf columnNames (tokenInner t) = -1) = []
  · rw [if_pos hu, if_pos (by simpa using hu)]
  · rw [if_neg hu, if_neg (by simpa using hu)]

/-! ### The claims -/

/-- C1: the spec asserts that for every record set with header `h` and
`n` data rows the scanner reports `recordCount = n`, also with no
trailing newline.  The code counts newline bytes minus one, so the set
`Email\na@b` — one data row, no trailing newline — is reported as having
0 records, while the same set with a trailing newline is reported
correctly.  The missing last record would silently never be emailed, so
this is a defect of the code, not of the claim. -/
theorem c1_scanner_drops_last_row_without_trailing_newline :
    getCsvInfo [strBytes "Email\na@b\n"] = .ok ⟨["Email"], 1⟩ ∧
    getCsvInfo [strBytes "Email\na@b"] = .ok ⟨["Email"], 0⟩ :=
  ⟨rfl, rfl⟩

/-- C2: once dispatch runs, every record `1 … n` gets exactly one
outcome; a record whose provider interaction throws or is non-success is
reported `none` (`Failed`), and every other record's outcome is still
produced — a failure never aborts the loop. -/
theorem c2_record_failure_isolated (n c k : Nat) (sender : Nat → SendResult)
    (hc : 1 ≤ c) (hk1 : 1 ≤ k) (hkn : k ≤ n)
    (hbad : sendFails (sender k) = true) :
    (dispatchOutcomes n c sender).length = n ∧
    (dispatchOutcomes n c sender)[k - 1]? = some none ∧
    ∀ j : Nat, 1 ≤ j → j ≤ n →
      (dispatchOutcomes n c sender)[j - 1]? = some (sendOneEmail (sender j)) := by
  refine ⟨?_, ?_, fun j hj1 hjn => dispatchOutcomes_getElem n c sender hc hj1 hjn⟩
  · rw [dispatchOutcomes_eq n c sender hc]
    simp
  · rw [dispatchOutcomes_getElem n c sender hc hk1 hkn, sendOneEmail_of_fails hbad]

theorem c2_witness :
    (dispatchOutcomes 3 2 (fun k => if k = 2 then SendResult.throw
        else SendResult.resp false 202 "id")).length = 3 ∧
    (dispatchOutcomes 3 2 (fun k => if k = 2 then SendResult.throw
        else SendResult.resp false 202 "id"))[1]? = some none := by
  have h := c2_record_failure_isolated 3 2 2
      (fun k => if k = 2 then SendResult.throw else SendResult.resp false 202 "id")
      (by decide) (by decide) (by decide) (by decide)
  exact ⟨h.1, h.2.1⟩

/-- C3: the dispatch loop's batches are exactly the contiguous chunks of
up to `c` records of `1 … n`, in order — they cover every data record
exactly once and only the last batch can be short — and at `c = 3`,
`n = 7` they are `[1,2,3], [4,5,6], [7]`. -/
theorem c3_batches_partition (n c : Nat) (hn : 1 ≤ n) (hc : 1 ≤ c) :
    (dispatchBatches n c).flatten = List.range' 1 n ∧
    dispatchBatches n c = chunksOf c (List.range' 1 n) ∧
    dispatchBatches 7 3 = [[1, 2, 3], [4, 5, 6], [7]] :=
  ⟨dispatchBatches_flatten n c hc, dispatchBatches_eq_chunksOf n c hc, by decide⟩

theorem c3_witness :
    (dispatchBatches 7 3).flatten = List.range' 1 7 ∧
    dispatchBatches 7 3 = chunksOf 3 (List.range' 1 7) ∧
    dispatchBatches 7 3 = [[1, 2, 3], [4, 5, 6], [7]] :=
  c3_batches_partition 7 3 (by decide) (by decide)

/-- C4: with 7 records at concurrency 2 and a provider stub that throws
exactly on record 4, the run produces all 7 outcomes: record 4 `Failed`
and the other six delivered, each carrying its provider message id
(here `toString k` for record `k`); the summary counts 6 delivered and
1 failed. -/
theorem c4_seven_records_one_failure :
    dispatchOutcomes 7 2 (fun k => if k = 4 then SendResult.throw
        else SendResult.resp false 202 (toString k))
      = [some "1", some "2", some "3", none, some "5", some "6", some "7"] ∧
    (dispatchOutcomes 7 2 (fun k => if k = 4 then SendResult.throw
        else SendResult.resp false 202 (toString k))).countP (fun o => o.isSome) = 6 ∧
    (dispatchOutcomes 7 2 (fun k => if k = 4 then SendResult.throw
        else SendResult.resp false 202 (toString k))).countP (fun o => o.isNone) = 1 :=
  ⟨by decide, by decide, by decide⟩

/-- C5 counterexample: the claim says a run with `b` batches delays
`b - 1` times, never before the first batch.  With one batch and
`THROTTLE = 100` the code delays once, not `1 - 1 = 0` times: the
throttle branch sits at the top of every loop iteration. -/
theorem c5_counterexample_first_batch_delayed :
    throttleDelays 1 1 100 ≠ (dispatchBatches 1 1).length - 1 := by decide

/-- C5 as amended: with `THROTTLE > 0` the delay happens exactly once
per batch — before every batch, including the first. -/
theorem c5_throttle_delay_every_batch (n c throttle : Nat)
    (hc : 1 ≤ c) (ht : 0 < throttle) :
    throttleDelays n c throttle = (dispatchBatches n c).length := by
  rw [throttleDelays, dispatchBatches, throttleLoop_eq_length n c throttle (by omega)]

theorem c5_witness : throttleDelays 5 2 100 = (dispatchBatches 5 2).length :=
  c5_throttle_delay_every_batch 5 2 100 (by decide) (by decide)

/-- C6 counterexample: the claim says a token whose column value is the
empty string is replaced by that empty string.  The callback
`values[…] || match` treats the empty string as falsy, so the literal
token text survives instead. -/
theorem c6_counterexample_empty_value :
    replaceTokens "@Name@" ["Name"] [""] = "@Name@" ∧ "@Name@" ≠ "" :=
  ⟨by decide, by decide⟩

/-- C6 as amended: over any token-structured text, substitution rewrites
every `@name@` occurrence independently — to the record's value at the
column's index when that value exists and is non-empty, and to the
literal token text when the name matches no column or the value is the
empty string — and never re-scans an expansion. -/
theorem c6_substitution_per_occurrence (keys values : List String)
    (segs : List Segment) (h : segs.all segWF = true) :
    replaceTokens (String.mk (renderChars segs)) keys values
      = String.mk (substChars keys values segs) := by
  show String.mk (replaceTokensAux keys values (renderChars segs)) = _
  rw [replaceTokensAux_render keys values segs h]

theorem c6_witness :
    replaceTokens "Hi @Name@, @Phone@" ["Name", "Email"] ["Ana", "a@x.com"]
      = "Hi Ana, @Phone@" := by
  have h := c6_substitution_per_occurrence ["Name", "Email"] ["Ana", "a@x.com"]
      [Segment.lit "Hi ", Segment.tok "Name", Segment.lit ", ", Segment.tok "Phone"]
      (by decide)
  have hr : String.mk (renderChars [Segment.lit "Hi ", Segment.tok "Name",
      Segment.lit ", ", Segment.tok "Phone"]) = "Hi @Name@, @Phone@" := by decide
  have hs : String.mk (substChars ["Name", "Email"] ["Ana", "a@x.com"]
      [Segment.lit "Hi ", Segment.tok "Name", Segment.lit ", ", Segment.tok "Phone"])
      = "Hi Ana, @Phone@" := by decide
  rw [hr, hs] at h
  exact h

/-- C7: the claim says a text with no `@name@` pattern gives an empty
token set and validation completes without crashing.  Extraction indeed
finds nothing — but JavaScript `match` then returns `null`, and the
`forEach` on it throws a `TypeError`: the run dies instead of
completing. -/
theorem c7_tokenless_template_crashes :
    jsMatchTokens ("Hello" ++ " world") = none ∧
    validateTokens "Hello" " world" ["Email"] = .error .typeError :=
  ⟨rfl, rfl⟩

/-- C8 counterexample: when subject and body contain no token at all,
every token (vacuously) matches a column, yet validation does not
succeed — it dies with the `TypeError` of C7 instead of reaching
dispatch. -/
theorem c8_counterexample_vacuous_tokens_crash :
    initRun "Hi" "!" ["Email"] 2 1 (fun _ => SendResult.resp false 202 "m")
      = .error .typeError := rfl

/-- C8 as amended: provided the combined subject line and template
contain at least one token occurrence, the run aborts before any send
with `UnknownToken` carrying the full, ordered list of token occurrences
whose name matches no column exactly when that list is non-empty;
otherwise validation succeeds and dispatch proceeds. -/
theorem c8_unknown_tokens_abort_before_dispatch
    (subjectLine templateContents : String) (columnNames : List String)
    (n c : Nat) (sender : Nat → SendResult)
    (h : tokenMatchesAux (subjectLine ++ templateContents).data ≠ []) :
    initRun subjectLine templateContents columnNames n c sender
      = if unavailableTokensOf (subjectLine ++ templateContents) columnNames = []
        then .ok (dispatchOutcomes n c sender)
        else .error (.unknownToken
            (unavailableTokensOf (subjectLine ++ templateContents) columnNames)) := by
  have hv := validateTokens_of_has_tokens subjectLine templateContents columnNames h
  by_cases hu : unavailableTokensOf (subjectLine ++ templateContents) columnNames = []
  · rw [initRun, hv, if_pos hu, if_pos hu]
  · rw [initRun, hv, if_neg hu, if_neg hu]

theorem c8_witness :
    initRun "Hi @Name@" " @Phone@" ["Name", "Email"] 3 1
        (fun _ => SendResult.resp false 202 "m")
      = .error (.unknownToken ["@Phone@"]) := by
  have h := c8_unknown_tokens_abort_before_dispatch "Hi @Name@" " @Phone@"
      ["Name", "Email"] 3 1 (fun _ => SendResult.resp false 202 "m") (by decide)
  exact h.trans (by rfl)

/-- C9: `sendOneEmail` is total — it never propagates an exception — and
returns the response's `x-message-id` exactly when the call did not
throw, no rejection value was returned, and the status code is exactly
202; a throw, a rejection, or any other status (other 2xx included)
yields `false` (`none`). -/
theorem c9_sendOneEmail_result :
    sendOneEmail SendResult.throw = none ∧
    (∀ (reject : Bool) (statusCode : Nat) (messageId : String),
      sendOneEmail (SendResult.resp reject statusCode messageId)
        = if reject = false ∧ statusCode = 202 then some messageId else none) ∧
    sendOneEmail (SendResult.resp false 200 "id") = none := by
  refine ⟨rfl, ?_, rfl⟩
  intro reject statusCode messageId
  cases reject with
  | false =>
      by_cases hs : statusCode = 202
      · subst hs; rfl
      · simp [sendOneEmail, hs]
  | true => rfl

end BulkMailer

